import Mathlib

/-!
Verification of the audio transport core of a live-audio client:
a codec (radix-64 text encoding of bytes), a linear resampler, a
16-bit frame quantizer, the capture pipeline composing them, and the
playback scheduler with interruption.  Samples and clock readings are
modelled as rationals; bytes as naturals below 256.
-/

/-- The radix-64 alphabet used by the platform text codec. -/
def base64Alphabet : List Char :=
  ['A','B','C','D','E','F','G','H','I','J','K','L','M','N','O','P',
   'Q','R','S','T','U','V','W','X','Y','Z',
   'a','b','c','d','e','f','g','h','i','j','k','l','m','n','o','p',
   'q','r','s','t','u','v','w','x','y','z',
   '0','1','2','3','4','5','6','7','8','9','+','/']

/-- Character for a six-bit group. -/
def sextetChar (n : Nat) : Char := base64Alphabet.getD n 'A'

/-- Six-bit group for a character of the alphabet. -/
def charSextet (c : Char) : Nat := base64Alphabet.indexOf c

/-- The `encode` function of the utility module: bytes to radix-64 text
(`String.fromCharCode` turns each byte into the character with that code
point, and `btoa` performs the standard 3-bytes-to-4-characters scheme
with `=` padding).  The text is modelled as its character list. -/
def encode : List Nat → List Char
  | [] => []
  | [b0] =>
      [sextetChar (b0 / 4), sextetChar (b0 % 4 * 16), '=', '=']
  | [b0, b1] =>
      [sextetChar (b0 / 4), sextetChar (b0 % 4 * 16 + b1 / 16),
       sextetChar (b1 % 16 * 4), '=']
  | b0 :: b1 :: b2 :: rest =>
      sextetChar (b0 / 4) :: sextetChar (b0 % 4 * 16 + b1 / 16) ::
      sextetChar (b1 % 16 * 4 + b2 / 64) :: sextetChar (b2 % 64) ::
      encode rest

/-- The `decode` function of the utility module: radix-64 text back to
bytes (`atob` followed by `charCodeAt` on every position). -/
def decode : List Char → List Nat
  | c0 :: c1 :: c2 :: c3 :: rest =>
      let s0 := charSextet c0
      let s1 := charSextet c1
      if c2 = '=' then
        [s0 * 4 + s1 / 16]
      else
        let s2 := charSextet c2
        if c3 = '=' then
          [s0 * 4 + s1 / 16, s1 % 16 * 16 + s2 / 4]
        else
          (s0 * 4 + s1 / 16) :: (s1 % 16 * 16 + s2 / 4) ::
          (s2 % 4 * 64 + charSextet c3) :: decode rest
  | _ => []

/-- Truncation toward zero of a rational: the integer conversion applied
when a number is stored into an `Int16Array` element (after the clamp the
value is always in range, so only the truncation matters). -/
def truncQ (x : ℚ) : ℤ := if 0 ≤ x then ⌊x⌋ else ⌈x⌉

/-- One iteration of the quantization loop in `createBlob`:
`Math.max(-32768, Math.min(32767, s * 32768))` stored into an
`Int16Array` element, which truncates toward zero. -/
def quantizeSample (s : ℚ) : ℤ :=
  truncQ (max (-32768) (min 32767 (s * 32768)))

/-- The quantization loop of `createBlob` over a whole buffer. -/
def quantize (samples : List ℚ) : List ℤ := samples.map quantizeSample

/-- The sample reconstruction in `decodeAudioData`: `v / 32768.0`. -/
def dequantizeSample (v : ℤ) : ℚ := (v : ℚ) / 32768

/-- Reconstruction of a whole frame sequence. -/
def dequantize (vs : List ℤ) : List ℚ := vs.map dequantizeSample

/-- The quantizer as the specification words it: `round(s * 32768)`
clamped to `[-32768, 32767]`.  Stated for comparison with
`quantizeSample`, which is what the code computes. -/
def quantizeSpecRound (s : ℚ) : ℤ :=
  max (-32768) (min 32767 (round (s * 32768)))

/-- The code's quantizer restated in the specification's shape with the
rounding mode corrected: truncation toward zero, then clamping. -/
def quantizeSpecTrunc (s : ℚ) : ℤ :=
  max (-32768) (min 32767 (truncQ (s * 32768)))

/-- Little-endian serialization of 16-bit integers: the `Uint8Array`
view of the `Int16Array` buffer taken by `createBlob`. -/
def int16LEBytes : List ℤ → List Nat
  | [] => []
  | v :: rest =>
      ((v % 65536) % 256).toNat :: ((v % 65536) / 256).toNat ::
      int16LEBytes rest

/-- `resampleLinear` from the utility module: identity at equal rates,
otherwise linear interpolation at positions `i * (inputSr / outputSr)`
with output length `floor(inputLength / (inputSr / outputSr))`, a zero
sample on the defensive out-of-range branch. -/
def resampleLinear (inputData : List ℚ) (inputSr outputSr : ℕ) : List ℚ :=
  if inputSr = outputSr then inputData
  else
    let r : ℚ := (inputSr : ℚ) / (outputSr : ℚ)
    let outputLength : ℕ := ⌊(inputData.length : ℚ) / r⌋₊
    (List.range outputLength).map (fun (i : ℕ) =>
      let pos : ℚ := (i : ℚ) * r
      let lo : ℤ := ⌊pos⌋
      if lo < 0 ∨ (inputData.length : ℤ) ≤ lo then 0
      else
        let hi : ℤ := min (lo + 1) ((inputData.length : ℤ) - 1)
        let k : ℚ := pos - (lo : ℚ)
        inputData.getD lo.toNat 0 * (1 - k) + inputData.getD hi.toNat 0 * k)

/-- The outbound chunk produced by `createBlob`: a textual payload and a
format tag. -/
structure BlobM where
  data : List Char
  mimeType : String
deriving DecidableEq

/-- `createBlob`: resample to 16000 Hz when the capture rate differs,
quantize to 16-bit integers, serialize little-endian and encode; the
format tag is the literal `'audio/pcm;rate=16000'`. -/
def createBlob (data : List ℚ) (currentSampleRate : ℕ) : BlobM :=
  let audioDataToProcess : List ℚ :=
    if currentSampleRate ≠ 16000 then
      resampleLinear data currentSampleRate 16000
    else data
  { data := encode (int16LEBytes (quantize audioDataToProcess)),
    mimeType := "audio/pcm;rate=16000" }

/-- A decoded audio buffer: frame count, rate and per-channel samples. -/
structure AudioBufferM where
  numFrames : ℕ
  sampleRate : ℕ
  channels : List (List ℚ)
deriving DecidableEq

/-- The signed 16-bit sample at index `j` of a little-endian byte
sequence: the `Int16Array` view taken by `decodeAudioData`. -/
def int16At (data : List ℕ) (j : ℕ) : ℤ :=
  let u := data.getD (2 * j) 0 + 256 * data.getD (2 * j + 1) 0
  if u < 32768 then (u : ℤ) else (u : ℤ) - 65536

/-- `decodeAudioData`: with no bytes it returns a minimal silent
one-frame buffer (`numChannels || 1` channels, rate `sampleRate ||
ctx.sampleRate`); otherwise it builds a buffer of
`data.length / 2 / numChannels` frames and fills each channel from the
interleaved 16-bit samples divided by 32768.  `none` models the throwing
paths of `createBuffer` (zero channels or a computed frame count that
truncates to zero). -/
def decodeAudioData (data : List ℕ)
    (ctxSampleRate sampleRate numChannels : ℕ) : Option AudioBufferM :=
  if data.length = 0 then
    some { numFrames := 1,
           sampleRate := if sampleRate = 0 then ctxSampleRate else sampleRate,
           channels :=
             (List.range (if numChannels = 0 then 1 else numChannels)).map
               (fun _ => [0]) }
  else if numChannels = 0 then none
  else if data.length / (2 * numChannels) = 0 then none
  else
    some { numFrames := data.length / (2 * numChannels),
           sampleRate := sampleRate,
           channels :=
             (List.range numChannels).map (fun c =>
               (List.range (data.length / (2 * numChannels))).map (fun i =>
                 dequantizeSample (int16At data (i * numChannels + c)))) }

/-- One in-flight playback source: its assigned start time, its
buffer's duration, and whether `stop()` has been commanded on it. -/
structure PlaybackUnit where
  startTime : ℚ
  duration : ℚ
  stopped : Bool
deriving DecidableEq, Inhabited

/-- The scheduler state of the component: `nextStartTime`, the `sources`
set of live units, the units already commanded to stop (kept so that
facts about them can be stated), and the recording flag. -/
structure SchedState where
  nextStartTime : ℚ
  live : List PlaybackUnit
  stoppedUnits : List PlaybackUnit
  isRecording : Bool
deriving DecidableEq

/-- The audio branch of the `onmessage` callback:
`nextStartTime = max(nextStartTime, currentTime)`, start the source at
that time, advance `nextStartTime` by the buffer duration and add the
source to the live set.  `now` is the clock reading at the call. -/
def onChunkDecoded (now dur : ℚ) (s : SchedState) : SchedState :=
  let startTime := max s.nextStartTime now
  { s with nextStartTime := startTime + dur,
           live := { startTime := startTime, duration := dur,
                     stopped := false } :: s.live }

/-- The interrupted branch of the `onmessage` callback: every live
source is commanded to stop and removed from the set, and
`nextStartTime` is reset to the sentinel `0`. -/
def onInterrupt (s : SchedState) : SchedState :=
  { s with nextStartTime := 0,
           live := [],
           stoppedUnits :=
             s.stoppedUnits ++ s.live.map (fun u => { u with stopped := true }) }

/-- `reset()`: `stopRecording()` then close and (after a timeout)
reinitialize the session.  No scheduler field is touched: neither the
live set nor `nextStartTime`. -/
def reset (s : SchedState) : SchedState := { s with isRecording := false }

/-- `initAudio()`: `nextStartTime = outputAudioContext.currentTime`,
executed once from `initClient` at construction (not from `reset`). -/
def initAudioModel (clock : ℚ) (s : SchedState) : SchedState :=
  { s with nextStartTime := clock }

/-- Modelled from the spec: the external output device (out of scope of
the source, specified at its interface) plays a scheduled source only
between its start time and its end, and never after `stop()` has been
commanded on it; a unit is Active at clock reading `c` exactly then. -/
def isActive (c : ℚ) (u : PlaybackUnit) : Prop :=
  u.stopped = false ∧ u.startTime ≤ c ∧ c < u.startTime + u.duration

theorem charSextet_sextetChar (n : Nat) (h : n < 64) :
    charSextet (sextetChar n) = n := by
  interval_cases n <;> rfl

theorem sextetChar_ne_pad (n : Nat) (h : n < 64) : sextetChar n ≠ '=' := by
  interval_cases n <;> decide

/-- C2: for every byte sequence `b`, decoding the text produced by
encoding returns exactly the original bytes:
`decodeFromText(encodeToText(b)) == b`. -/
theorem claim_C2 (b : List Nat) (h : ∀ x ∈ b, x < 256) :
    decode (encode b) = b := by
  induction b using encode.induct with
  | case1 => rfl
  | case2 b0 =>
    have h0 : b0 < 256 := h b0 (by simp)
    have e0 := charSextet_sextetChar (b0 / 4) (by omega)
    have e1 := charSextet_sextetChar (b0 % 4 * 16) (by omega)
    simp only [encode, decode]
    rw [if_pos trivial, e0, e1]
    have : b0 / 4 * 4 + b0 % 4 * 16 / 16 = b0 := by omega
    rw [this]
  | case3 b0 b1 =>
    have h0 : b0 < 256 := h b0 (by simp)
    have h1 : b1 < 256 := h b1 (by simp)
    have e0 := charSextet_sextetChar (b0 / 4) (by omega)
    have e1 := charSextet_sextetChar (b0 % 4 * 16 + b1 / 16) (by omega)
    have e2 := charSextet_sextetChar (b1 % 16 * 4) (by omega)
    simp only [encode, decode]
    rw [if_neg (sextetChar_ne_pad _ (by omega)), if_pos trivial, e0, e1, e2]
    have r0 : b0 / 4 * 4 + (b0 % 4 * 16 + b1 / 16) / 16 = b0 := by omega
    have r1 : (b0 % 4 * 16 + b1 / 16) % 16 * 16 + b1 % 16 * 4 / 4 = b1 := by
      omega
    rw [r0, r1]
  | case4 b0 b1 b2 rest ih =>
    have h0 : b0 < 256 := h b0 (by simp)
    have h1 : b1 < 256 := h b1 (by simp)
    have h2 : b2 < 256 := h b2 (by simp)
    have e0 := charSextet_sextetChar (b0 / 4) (by omega)
    have e1 := charSextet_sextetChar (b0 % 4 * 16 + b1 / 16) (by omega)
    have e2 := charSextet_sextetChar (b1 % 16 * 4 + b2 / 64) (by omega)
    have e3 := charSextet_sextetChar (b2 % 64) (by omega)
    simp only [encode, decode]
    rw [if_neg (sextetChar_ne_pad _ (by omega)),
        if_neg (sextetChar_ne_pad _ (by omega)), e0, e1, e2, e3]
    have r0 : b0 / 4 * 4 + (b0 % 4 * 16 + b1 / 16) / 16 = b0 := by omega
    have r1 : (b0 % 4 * 16 + b1 / 16) % 16 * 16 + (b1 % 16 * 4 + b2 / 64) / 4
        = b1 := by omega
    have r2 : (b1 % 16 * 4 + b2 / 64) % 4 * 64 + b2 % 64 = b2 := by omega
    rw [r0, r1, r2, ih (fun x hx => h x (by simp [hx]))]

/-- Witness for C2 at the concrete byte sequence `[0, 255, 16]`. -/
theorem claim_C2_witness :
    (∀ x ∈ [0, 255, 16], x < 256) ∧
    decode (encode [0, 255, 16]) = [0, 255, 16] :=
  ⟨by decide, claim_C2 [0, 255, 16] (by decide)⟩

/-- C9: `createBlob` tags every produced chunk with the same fixed
format string identifying 16-bit PCM at 16000 Hz
(`'audio/pcm;rate=16000'`), whatever the input buffer and whatever the
input sample rate; the tag never varies per call. -/
theorem claim_C9 (data : List ℚ) (currentSampleRate : ℕ) :
    (createBlob data currentSampleRate).mimeType = "audio/pcm;rate=16000" :=
  rfl

/-- Counterexample for C5 as stated: in a state with one live unit and
`nextStartTime = 5`, with the output clock reading `7` at the call,
`reset()` leaves the live set nonempty (it stops no playback source)
and leaves `nextStartTime` at `5`, not at the clock's reading. -/
theorem claim_C5_counterexample :
    (reset ⟨5, [⟨2, 3, false⟩], [], true⟩).live ≠ [] ∧
    (reset ⟨5, [⟨2, 3, false⟩], [], true⟩).nextStartTime ≠ 7 ∧
    (reset ⟨5, [⟨2, 3, false⟩], [], true⟩).nextStartTime = 5 := by
  decide

/-- C5 amended: `reset()` only stops capture and tears down the
session; it leaves the live units and `nextStartTime` untouched.
`nextStartTime` is initialized to the output clock's current reading
only by `initAudio`, which runs once at client construction and is not
called again from `reset`. -/
theorem claim_C5_amended :
    (∀ s : SchedState,
      (reset s).live = s.live ∧
      (reset s).nextStartTime = s.nextStartTime ∧
      (reset s).stoppedUnits = s.stoppedUnits ∧
      (reset s).isRecording = false) ∧
    (∀ (clock : ℚ) (s : SchedState),
      (initAudioModel clock s).nextStartTime = clock) :=
  ⟨fun _ => ⟨rfl, rfl, rfl, rfl⟩, fun _ _ => rfl⟩

/-- Counterexample for C7 as stated: a zero-duration chunk delivered
while the scheduler is idle behind the clock (`nextStartTime = 0`,
clock reading `10`) does change `nextStartTime` (to `10`). -/
theorem claim_C7_counterexample :
    (onChunkDecoded 10 0 ⟨0, [], [], false⟩).nextStartTime ≠
      (SchedState.mk 0 [] [] false).nextStartTime ∧
    (onChunkDecoded 10 0 ⟨0, [], [], false⟩).live ≠ [] := by
  constructor
  · show max (0 : ℚ) 10 + 0 ≠ 0
    norm_num
  · simp [onChunkDecoded]

/-- C7 amended: a zero-duration buffer is still scheduled (a unit is
added to the live set); `nextStartTime` becomes
`max(nextStartTime, now)`, so it is unchanged by the call exactly when
the clock reading does not exceed the stored `nextStartTime`. -/
theorem claim_C7_amended (s : SchedState) (now : ℚ)
    (h : now ≤ s.nextStartTime) :
    (onChunkDecoded now 0 s).live =
      { startTime := s.nextStartTime, duration := 0, stopped := false }
        :: s.live ∧
    (onChunkDecoded now 0 s).nextStartTime = s.nextStartTime := by
  constructor
  · simp [onChunkDecoded, max_eq_left h]
  · simp [onChunkDecoded, max_eq_left h]

/-- Witness for C7 amended: scheduler at `nextStartTime = 4`, clock at
`3`, zero-duration chunk. -/
theorem claim_C7_amended_witness :
    ((3 : ℚ) ≤ (SchedState.mk 4 [] [] false).nextStartTime) ∧
    ((onChunkDecoded 3 0 ⟨4, [], [], false⟩).live =
      { startTime := (4 : ℚ), duration := 0, stopped := false } :: [] ∧
     (onChunkDecoded 3 0 ⟨4, [], [], false⟩).nextStartTime = 4) :=
  ⟨by norm_num, claim_C7_amended ⟨4, [], [], false⟩ 3 (by norm_num)⟩

/-- C3: after `onInterrupt()` the live set is empty and `nextStartTime`
is the unset sentinel `0`; every unit that was live before the call has
been commanded to stop, and a stopped unit is never Active at any clock
reading (so a unit still Scheduled at the interrupt never reaches
Active). -/
theorem claim_C3 (s : SchedState) :
    (onInterrupt s).live = [] ∧
    (onInterrupt s).nextStartTime = 0 ∧
    ∀ u ∈ s.live, ∃ u' ∈ (onInterrupt s).stoppedUnits,
      u'.startTime = u.startTime ∧ u'.duration = u.duration ∧
      u'.stopped = true ∧ ∀ c : ℚ, ¬ isActive c u' := by
  refine ⟨rfl, rfl, ?_⟩
  intro u hu
  refine ⟨{ u with stopped := true }, ?_, rfl, rfl, rfl, ?_⟩
  · simp only [onInterrupt, List.mem_append, List.mem_map]
    exact Or.inr ⟨u, hu, rfl⟩
  · intro c hact
    simpa [isActive] using hact.1

/-- Witness for C3: one unit, scheduled at time `2` for `3` clock
units, is live when an interrupt with `nextStartTime = 5` arrives. -/
theorem claim_C3_witness :
    ((⟨2, 3, false⟩ : PlaybackUnit) ∈
      (SchedState.mk 5 [⟨2, 3, false⟩] [] true).live) ∧
    ∃ u' ∈ (onInterrupt ⟨5, [⟨2, 3, false⟩], [], true⟩).stoppedUnits,
      u'.startTime = (⟨2, 3, false⟩ : PlaybackUnit).startTime ∧
      u'.duration = (⟨2, 3, false⟩ : PlaybackUnit).duration ∧
      u'.stopped = true ∧ ∀ c : ℚ, ¬ isActive c u' :=
  ⟨by decide,
   (claim_C3 ⟨5, [⟨2, 3, false⟩], [], true⟩).2.2 ⟨2, 3, false⟩ (by decide)⟩

/-- C1: every call to the chunk handler assigns the new unit the start
time `max(nextStartTime, now)` and leaves `nextStartTime` equal to that
start time plus the buffer's duration; and for three chunks of
durations `1, 2, 3/2` delivered with the clock always behind the
running total (which starts at `0`), the assigned start times are
`0, 1, 3` and `nextStartTime` ends at `9/2`. -/
theorem claim_C1 :
    (∀ (s : SchedState) (now dur : ℚ),
      (onChunkDecoded now dur s).live =
        { startTime := max s.nextStartTime now, duration := dur,
          stopped := false } :: s.live ∧
      (onChunkDecoded now dur s).nextStartTime =
        max s.nextStartTime now + dur) ∧
    (∀ (s0 : SchedState) (n1 n2 n3 : ℚ),
      s0.nextStartTime = 0 →
      0 ≤ n1 → n1 ≤ 0 → 0 ≤ n2 → n2 ≤ 1 → 0 ≤ n3 → n3 ≤ 3 →
      (onChunkDecoded n1 1 s0).live.headI.startTime = 0 ∧
      (onChunkDecoded n2 2 (onChunkDecoded n1 1 s0)).live.headI.startTime
        = 1 ∧
      (onChunkDecoded n3 (3/2)
        (onChunkDecoded n2 2 (onChunkDecoded n1 1 s0))).live.headI.startTime
        = 3 ∧
      (onChunkDecoded n3 (3/2)
        (onChunkDecoded n2 2 (onChunkDecoded n1 1 s0))).nextStartTime
        = 9/2) := by
  constructor
  · intro s now dur
    exact ⟨rfl, rfl⟩
  · intro s0 n1 n2 n3 hs0 _ h1b _ h2b _ h3b
    have m1 : max s0.nextStartTime n1 = 0 := by
      rw [hs0]; exact max_eq_left h1b
    have t1 : (onChunkDecoded n1 1 s0).nextStartTime = 1 := by
      show max s0.nextStartTime n1 + 1 = 1
      rw [m1]; norm_num
    have m2 : max (onChunkDecoded n1 1 s0).nextStartTime n2 = 1 := by
      rw [t1]; exact max_eq_left h2b
    have t2 : (onChunkDecoded n2 2 (onChunkDecoded n1 1 s0)).nextStartTime
        = 3 := by
      show max (onChunkDecoded n1 1 s0).nextStartTime n2 + 2 = 3
      rw [m2]; norm_num
    have m3 : max
        (onChunkDecoded n2 2 (onChunkDecoded n1 1 s0)).nextStartTime n3
        = 3 := by
      rw [t2]; exact max_eq_left h3b
    refine ⟨?_, ?_, ?_, ?_⟩
    · show max s0.nextStartTime n1 = 0
      exact m1
    · show max (onChunkDecoded n1 1 s0).nextStartTime n2 = 1
      exact m2
    · show max
        (onChunkDecoded n2 2 (onChunkDecoded n1 1 s0)).nextStartTime n3 = 3
      exact m3
    · show max
        (onChunkDecoded n2 2 (onChunkDecoded n1 1 s0)).nextStartTime n3
          + 3/2 = 9/2
      rw [m3]; norm_num

/-- Witness for C1 at the concrete clock readings `0, 1/2, 2` from the
initial state. -/
theorem claim_C1_witness :
    ((SchedState.mk 0 [] [] false).nextStartTime = 0 ∧
     (0 : ℚ) ≤ 0 ∧ (0 : ℚ) ≤ 0 ∧ (0 : ℚ) ≤ 1/2 ∧ (1/2 : ℚ) ≤ 1 ∧
     (0 : ℚ) ≤ 2 ∧ (2 : ℚ) ≤ 3) ∧
    ((onChunkDecoded 0 1 ⟨0, [], [], false⟩).live.headI.startTime = 0 ∧
     (onChunkDecoded (1/2) 2
       (onChunkDecoded 0 1 ⟨0, [], [], false⟩)).live.headI.startTime = 1 ∧
     (onChunkDecoded 2 (3/2) (onChunkDecoded (1/2) 2
       (onChunkDecoded 0 1 ⟨0, [], [], false⟩))).live.headI.startTime = 3 ∧
     (onChunkDecoded 2 (3/2) (onChunkDecoded (1/2) 2
       (onChunkDecoded 0 1 ⟨0, [], [], false⟩))).nextStartTime = 9/2) :=
  ⟨by norm_num,
   claim_C1.2 ⟨0, [], [], false⟩ 0 (1/2) 2 rfl (le_refl 0) (le_refl 0)
     (by norm_num) (by norm_num) (by norm_num) (by norm_num)⟩

theorem ceil_neg32768 : ⌈(-32768 : ℚ)⌉ = -32768 := by
  rw [show ((-32768 : ℚ)) = ((-32768 : ℤ) : ℚ) by norm_num]
  exact Int.ceil_intCast _

theorem truncQ_clamp (x : ℚ) :
    truncQ (max (-32768) (min 32767 x)) =
      max (-32768) (min 32767 (truncQ x)) := by
  rcases le_or_lt x (-32768) with hA | hB
  · have hceil : ⌈x⌉ ≤ (-32768 : ℤ) := Int.ceil_le.mpr (by exact_mod_cast hA)
    rw [min_eq_right (by linarith : x ≤ (32767 : ℚ)), max_eq_left hA]
    unfold truncQ
    rw [if_neg (by norm_num : ¬ (0 : ℚ) ≤ -32768),
        if_neg (not_le.mpr (by linarith : x < 0))]
    rw [min_eq_right (le_trans hceil (by norm_num)), max_eq_left hceil]
    exact ceil_neg32768
  · rcases lt_or_le x 0 with hB2 | hC
    · have hup : ⌈x⌉ ≤ (32767 : ℤ) :=
        Int.ceil_le.mpr (by push_cast; linarith)
      have hlow : (-32768 : ℤ) ≤ ⌈x⌉ := by
        have hx : x ≤ (⌈x⌉ : ℚ) := Int.le_ceil x
        have : (-32768 : ℚ) ≤ (⌈x⌉ : ℚ) := by linarith
        exact_mod_cast this
      rw [min_eq_right (by linarith : x ≤ (32767 : ℚ)),
          max_eq_right (le_of_lt hB)]
      unfold truncQ
      rw [if_neg (not_le.mpr hB2)]
      rw [min_eq_right hup, max_eq_right hlow]
    · rcases le_or_lt x 32767 with hC2 | hD
      · have h0 : (0 : ℤ) ≤ ⌊x⌋ := Int.floor_nonneg.mpr hC
        have h1 : ⌊x⌋ ≤ (32767 : ℤ) := by
          have hx : (⌊x⌋ : ℚ) ≤ x := Int.floor_le x
          have : (⌊x⌋ : ℚ) ≤ 32767 := by linarith
          exact_mod_cast this
        rw [min_eq_right hC2, max_eq_right (by linarith : (-32768 : ℚ) ≤ x)]
        unfold truncQ
        rw [if_pos hC]
        rw [min_eq_right h1, max_eq_right (by linarith : (-32768 : ℤ) ≤ ⌊x⌋)]
      · have h1 : (32767 : ℤ) ≤ ⌊x⌋ :=
          Int.le_floor.mpr (by exact_mod_cast le_of_lt hD)
        rw [min_eq_left (le_of_lt hD),
            max_eq_right (by norm_num : (-32768 : ℚ) ≤ 32767)]
        unfold truncQ
        rw [if_pos (by norm_num : (0 : ℚ) ≤ 32767),
            if_pos (by linarith : (0 : ℚ) ≤ x)]
        rw [min_eq_left h1,
            max_eq_right (by norm_num : (-32768 : ℤ) ≤ 32767)]
        norm_num

/-- Counterexample for C4 as stated: at the sample `3/131072` (whose
scaled value is `0.75`) the code produces `0` — the `Int16Array` store
truncates toward zero — while `round(s * 32768)` clamped is `1`. -/
theorem claim_C4_counterexample :
    quantize [(3 : ℚ)/131072] = [0] ∧
    quantizeSpecRound ((3 : ℚ)/131072) = 1 ∧
    quantize [(3 : ℚ)/131072] ≠ [quantizeSpecRound ((3 : ℚ)/131072)] := by
  refine ⟨?_, ?_, ?_⟩
  · show [quantizeSample ((3 : ℚ)/131072)] = [0]
    unfold quantizeSample truncQ
    norm_num
  · unfold quantizeSpecRound
    norm_num [round_eq]
  · show [quantizeSample ((3 : ℚ)/131072)] ≠ _
    unfold quantizeSample quantizeSpecRound truncQ
    norm_num [round_eq]

/-- C4 amended: each sample `s` maps to `s * 32768` truncated toward
zero (the `Int16Array` conversion, not `round`) and clamped to
`[-32768, 32767]`, saturating; the spot checks hold unchanged:
`quantize([2.0]) == [32767]`, `quantize([-2.0]) == [-32768]`,
`quantize([0.0]) == [0]`. -/
theorem claim_C4_amended :
    (∀ s : ℚ, quantizeSample s = quantizeSpecTrunc s) ∧
    quantize [2] = [32767] ∧ quantize [-2] = [-32768] ∧
    quantize [0] = [0] := by
  refine ⟨fun s => truncQ_clamp (s * 32768), ?_, ?_, ?_⟩
  · show [quantizeSample 2] = [32767]
    unfold quantizeSample truncQ
    norm_num
  · show [quantizeSample (-2)] = [-32768]
    unfold quantizeSample truncQ
    norm_num [ceil_neg32768]
  · show [quantizeSample 0] = [0]
    unfold quantizeSample truncQ
    norm_num

/-- C8: for every sample in `[-1, 1]`, dequantizing its quantization
reproduces it within one quantization step `1/32768`. -/
theorem claim_C8 (s : ℚ) (h1 : -1 ≤ s) (h2 : s ≤ 1) :
    |(dequantize (quantize [s])).getD 0 0 - s| ≤ 1 / 32768 := by
  have hlo : (-32768 : ℚ) ≤ s * 32768 := by linarith
  have hhi : s * 32768 ≤ 32768 := by linarith
  have key : |((quantizeSample s : ℤ) : ℚ) - s * 32768| ≤ 1 := by
    unfold quantizeSample truncQ
    rcases le_or_lt (s * 32768) 32767 with hc | hc
    · rw [min_eq_right hc, max_eq_right hlo]
      rcases le_or_lt 0 (s * 32768) with hs | hs
      · rw [if_pos hs]
        have l1 := Int.floor_le (s * 32768)
        have l2 := Int.sub_one_lt_floor (s * 32768)
        rw [abs_le]
        constructor <;> linarith
      · rw [if_neg (not_le.mpr hs)]
        have l1 := Int.le_ceil (s * 32768)
        have l2 := Int.ceil_lt_add_one (s * 32768)
        rw [abs_le]
        constructor <;> linarith
    · rw [min_eq_left (le_of_lt hc),
          max_eq_right (by norm_num : (-32768 : ℚ) ≤ 32767),
          if_pos (by norm_num : (0 : ℚ) ≤ 32767)]
      have hf : ⌊(32767 : ℚ)⌋ = 32767 := by norm_num
      rw [hf, abs_le]
      constructor <;> push_cast <;> linarith
  have expand : (dequantize (quantize [s])).getD 0 0 - s =
      (((quantizeSample s : ℤ) : ℚ) - s * 32768) / 32768 := by
    show dequantizeSample (quantizeSample s) - s = _
    unfold dequantizeSample
    ring
  rw [expand, abs_div, abs_of_pos (by norm_num : (0 : ℚ) < 32768)]
  rw [div_le_div_iff_of_pos_right (by norm_num : (0 : ℚ) < 32768)]
  exact key

/-- Witness for C8 at the concrete sample `1/3`. -/
theorem claim_C8_witness :
    (-1 ≤ (1/3 : ℚ) ∧ (1/3 : ℚ) ≤ 1) ∧
    |(dequantize (quantize [(1/3 : ℚ)])).getD 0 0 - 1/3| ≤ 1 / 32768 :=
  ⟨by norm_num, claim_C8 (1/3) (by norm_num) (by norm_num)⟩

/-- C6: for positive rates `r1 ≠ r2` the resampled output length is
`floor(len(x) * r2 / r1)`, equal to the code's
`floor(inputLength / ratio)` with `ratio = r1 / r2`. -/
theorem claim_C6 (x : List ℚ) (r1 r2 : ℕ) (hne : r1 ≠ r2)
    (h1 : 0 < r1) (h2 : 0 < r2) :
    (resampleLinear x r1 r2).length = x.length * r2 / r1 := by
  unfold resampleLinear
  rw [if_neg hne]
  simp only [List.length_map, List.length_range]
  have hr1 : ((r1 : ℚ)) ≠ 0 := Nat.cast_ne_zero.mpr h1.ne'
  have hr2 : ((r2 : ℚ)) ≠ 0 := Nat.cast_ne_zero.mpr h2.ne'
  have hq : (x.length : ℚ) / ((r1 : ℚ) / (r2 : ℚ)) =
      ((x.length * r2 : ℕ) : ℚ) / ((r1 : ℕ) : ℚ) := by
    push_cast
    field_simp
  rw [hq, Nat.floor_div_nat, Nat.floor_natCast]

/-- Witness for C6: six samples resampled from 48000 Hz to 16000 Hz
give two samples. -/
theorem claim_C6_witness :
    ((48000 : ℕ) ≠ 16000 ∧ 0 < 48000 ∧ 0 < 16000) ∧
    (resampleLinear [1, 2, 3, 4, 5, 6] 48000 16000).length =
      [(1 : ℚ), 2, 3, 4, 5, 6].length * 16000 / 48000 :=
  ⟨by decide,
   claim_C6 [1, 2, 3, 4, 5, 6] 48000 16000 (by decide) (by decide)
     (by decide)⟩

/-- C10: decoding an empty inbound byte sequence does not fail and
yields the minimal silent one-frame buffer (here at the inbound call
site's rate 24000 and one channel); and every buffer `decodeAudioData`
returns has at least one frame, hence strictly positive duration. -/
theorem claim_C10 :
    decodeAudioData [] 44100 24000 1 =
      some { numFrames := 1, sampleRate := 24000, channels := [[0]] } ∧
    (∀ (data : List ℕ) (ctxSr sr nc : ℕ) (b : AudioBufferM),
      decodeAudioData data ctxSr sr nc = some b → 1 ≤ b.numFrames) := by
  constructor
  · rfl
  · intro data ctxSr sr nc b h
    unfold decodeAudioData at h
    by_cases h1 : data.length = 0
    · rw [if_pos h1] at h
      obtain rfl : _ = b := Option.some.inj h
      exact le_refl _
    · rw [if_neg h1] at h
      by_cases h2 : nc = 0
      · rw [if_pos h2] at h
        exact Option.noConfusion h
      · rw [if_neg h2] at h
        by_cases h3 : data.length / (2 * nc) = 0
        · rw [if_pos h3] at h
          exact Option.noConfusion h
        · rw [if_neg h3] at h
          obtain rfl : _ = b := Option.some.inj h
          exact Nat.one_le_iff_ne_zero.mpr h3

/-- Witness for C10: the two-byte sequence `[7, 0]` decodes to a
one-frame mono buffer with the sample `7/32768`. -/
theorem claim_C10_witness :
    decodeAudioData [7, 0] 44100 24000 1 =
      some { numFrames := 1, sampleRate := 24000,
             channels := [[(7 : ℚ)/32768]] } ∧
    1 ≤ (AudioBufferM.mk 1 24000 [[(7 : ℚ)/32768]]).numFrames :=
  ⟨by
     have hr : List.range 1 = [0] := rfl
     norm_num [decodeAudioData, int16At, dequantizeSample, hr],
   claim_C10.2 [7, 0] 44100 24000 1 _
     (by
       have hr : List.range 1 = [0] := rfl
       norm_num [decodeAudioData, int16At, dequantizeSample, hr])⟩
